import Mathlib

/-!
Verification development for the konsole terminal-display core
(src/konsole/TerminalDisplay.cpp): the screen-grid diff engine
(updateImage), the scroll-shift optimizer (scrollImage), the selection
model (extendSelection, mouseDoubleClickEvent, mouseTripleClickEvent,
charClass) and coordinate conversion (characterPosition).

Machine integers of the source are modelled as Nat/Int; the flat
Character buffer is modelled as a total function from flat indices to
cells, and memmove/memcpy as the corresponding pointwise functions on
index ranges; toolkit calls that only paint are dropped, toolkit calls
whose results feed the algorithms (scrollbar clamping, Unicode
character predicates) are modelled as explicit state/parameters.
-/

namespace Konsole

/-- Modelled from the spec: the Cell type (the source's Character struct
lives in a header that is not among the reviewed sources).  Per spec §3 a
cell carries a character code point, a foreground color reference, a
background color reference and a rendition bit-set, and cells are
copyable value types compared field-wise. -/
structure Character where
  character : Nat
  rendition : Nat
  foregroundColor : Nat
  backgroundColor : Nat
deriving DecidableEq, Repr

/-- Modelled from the spec: per-row line attribute flags (spec §3
LineAttributes; the LINE_WRAPPED / LINE_DOUBLEHEIGHT bit constants live in
a header that is not among the reviewed sources).  Only the two flags the
modelled code reads are kept. -/
structure LineProperty where
  wrapped : Bool
  doubleHeight : Bool
deriving DecidableEq, Repr

/-- Modelled from the spec (§4.4, §9): the injectable three-way character
classifier inputs, standing for the toolkit Unicode predicates
QChar::isSpace and QChar::isLetterOrNumber and for the case-insensitive
membership test in the configurable word-character set. -/
structure CharClassifier where
  isSpace : Nat → Bool
  isLetterOrNumber : Nat → Bool
  wordCharactersContains : Nat → Bool

/-- A rectangle in widget pixel coordinates, as the source's QRect
(x, y, width, height). -/
structure QRect where
  x : Int
  y : Int
  w : Int
  h : Int
deriving DecidableEq, Repr

/-- A point, as the source's QPoint. -/
structure QPoint where
  x : Int
  y : Int
deriving DecidableEq, Repr

/-- The blit instruction issued by scrollImage through the widget call
scroll(dx, dy, scrollRect): the region scrollRect whose already rendered
pixels are moved by (dx, dy). -/
structure ScrollBlit where
  rect : QRect
  dx : Int
  dy : Int
deriving DecidableEq, Repr

/-- The fields of the TerminalDisplay widget that the modelled member
functions read or write.  image is the flat _image buffer (row stride
_columns) as a total function on flat indices; imageAllocated models the
_image pointer being non-null; tLx/tLy model contentsRect().topLeft();
scrollValue/scrollMin/scrollMax model the vertical scrollbar.  The
remaining names follow the source's member names. -/
structure TerminalDisplay where
  image : Nat → Character
  imageAllocated : Bool
  imageSize : Nat
  lines : Nat
  columns : Nat
  usedLines : Nat
  usedColumns : Nat
  lineProperties : Nat → LineProperty
  linePropertiesCount : Nat
  resizing : Bool
  imPreeditLength : Int
  imStartLine : Int
  imStart : Int
  imEnd : Int
  imSelStart : Int
  imSelEnd : Int
  fontWidth : Nat
  fontHeight : Nat
  bX : Int
  bY : Int
  tLx : Int
  tLy : Int
  scrollValue : Int
  scrollMin : Int
  scrollMax : Int
  iPntSel : QPoint
  pntSel : QPoint
  tripleSelBegin : QPoint
  actSel : Nat
  wordSelectionMode : Bool
  lineSelectionMode : Bool
  columnSelectionMode : Bool
  cutToBeginningOfLine : Bool
  mouseMarks : Bool
  classifier : CharClassifier

/-- static inline bool isLineChar(Q_UINT16 c) : (c & 0xFF80) == 0x2500. -/
def isLineChar (c : Nat) : Bool := (Nat.land c 0xFF80) == 0x2500

/-- The loc(X,Y) macro: (Y)*_columns+(X), on the allocated row stride. -/
def loc (td : TerminalDisplay) (x y : Int) : Int := y * td.columns + x

/-- TerminalDisplay::scrollImage, the in-buffer effect: the new content of
the flat _image buffer.  For n > 0 the source runs
memmove(_image, _image + n*_usedColumns, (_usedLines-n)*_usedColumns)
and for n < 0
memmove(_image + |n|*_usedColumns, _image, (_usedLines-|n|)*_usedColumns);
both are expressed pointwise on flat indices. -/
def scrollImageFn (td : TerminalDisplay) (n : Int) : Nat → Character :=
  if n = 0 ∨ td.imageAllocated = false ∨ td.usedLines ≤ n.natAbs then
    td.image
  else if 0 < n then
    fun i =>
      if i < (td.usedLines - n.natAbs) * td.usedColumns then
        td.image (i + n.natAbs * td.usedColumns)
      else td.image i
  else
    fun i =>
      if n.natAbs * td.usedColumns ≤ i ∧ i < td.usedLines * td.usedColumns then
        td.image (i - n.natAbs * td.usedColumns)
      else td.image i

/-- TerminalDisplay::scrollImage, the blit instruction: none on the early
return, otherwise the scrollRect of the taken branch together with the
final scroll(0, _fontHeight * (-_lines), scrollRect) displacement. -/
def scrollImageBlit (td : TerminalDisplay) (n : Int) : Option ScrollBlit :=
  if n = 0 ∨ td.imageAllocated = false ∨ td.usedLines ≤ n.natAbs then
    none
  else if 0 < n then
    some { rect := { x := td.bX, y := td.bY,
                     w := (td.usedColumns * td.fontWidth : Nat),
                     h := ((td.usedLines - n.natAbs) * td.fontHeight : Nat) },
           dx := 0, dy := (td.fontHeight : Int) * (-n) }
  else
    some { rect := { x := td.bX, y := td.bY + (n.natAbs * td.fontHeight : Nat),
                     w := (td.usedColumns * td.fontWidth : Nat),
                     h := ((td.usedLines - n.natAbs) * td.fontHeight : Nat) },
           dx := 0, dy := (td.fontHeight : Int) * (-n) }

/-- TerminalDisplay::scrollImage: early return when the shift is zero, the
image is unallocated, or |shift| is at least _usedLines; otherwise the
buffer is shifted and the blit instruction issued. -/
def scrollImage (td : TerminalDisplay) (n : Int) :
    TerminalDisplay × Option ScrollBlit :=
  ({ td with image := scrollImageFn td n }, scrollImageBlit td n)

/-- The input-method overlay condition of the dirty-mask marking loop of
TerminalDisplay::updateImage (the first disjunct of the marking
condition), with the C operator precedence made explicit:
(_imPreeditLength > 0) && ((_imStartLine == y && _imStart < _imEnd &&
x > _imStart && x < _imEnd) || (_imSelStart < _imSelEnd && x > _imSelStart)). -/
def imCondition (td : TerminalDisplay) (y x : Nat) : Bool :=
  0 < td.imPreeditLength &&
    ((td.imStartLine == (y : Int) && td.imStart < td.imEnd &&
      td.imStart < (x : Int) && (x : Int) < td.imEnd) ||
     (td.imSelStart < td.imSelEnd && td.imSelStart < (x : Int)))

/-- One column of the raw dirty test of updateImage's marking loop: column
x of row y (x < columnsToUpdate) is marked when the IM overlay condition
holds or newLine[x] != currentLine[x], where newLine has the incoming
window stride wcolsN and currentLine the allocated stride _columns. -/
def cellDirty (td : TerminalDisplay) (newimg : Nat → Character)
    (wcolsN ctu y x : Nat) : Bool :=
  x < ctu &&
    (imCondition td y x ||
     newimg (y * wcolsN + x) != td.image (y * td.columns + x))

/-- The dilated dirty mask read by the scanning loop (the source sets
dirtyMask[x] = dirtyMask[x+1] = dirtyMask[x+2] = 1 on the raw buffer and
then advances the pointer by one): position x is set when column x-1, x
or x+1 is marked dirty. -/
def dirtyMask (td : TerminalDisplay) (newimg : Nat → Character)
    (wcolsN ctu y x : Nat) : Bool :=
  cellDirty td newimg wcolsN ctu y x ||
    (0 < x && cellDirty td newimg wcolsN ctu y (x - 1)) ||
    cellDirty td newimg wcolsN ctu y (x + 1)

/-- The run-length loop of updateImage's scanning pass: starting from the
run head at column x (head attributes cf/cb/cr, head character c, its
line-drawing and double-width classification), extend len while len <
columnsToUpdate - x, skipping trailing cells of multi-column characters,
and stop at an attribute change, an unmarked mask position, a
line-drawing transition or a double-width transition.  Structural fuel
stands for the loop counter; the callers pass fuel ≥ columnsToUpdate so
it never runs out. -/
def runLenAux (newLine : Nat → Character) (mask : Nat → Bool)
    (cf cb cr c : Nat) (doubleWidth : Bool) (ctu x : Nat) :
    Nat → Nat → Nat
  | len, 0 => len
  | len, Nat.succ fuel =>
    if len < ctu - x then
      let ch := newLine (x + len)
      if ch.character = 0 then
        runLenAux newLine mask cf cb cr c doubleWidth ctu x (len + 1) fuel
      else if ch.foregroundColor != cf || ch.backgroundColor != cb ||
              ch.rendition != cr || !(mask (x + len)) ||
              (isLineChar ch.character != isLineChar c) ||
              (((newLine (x + len + 1)).character == 0) != doubleWidth) then
        len
      else
        runLenAux newLine mask cf cb cr c doubleWidth ctu x (len + 1) fuel
    else len

/-- The scanning loop of updateImage for one row: walk the columns, and at
every masked position whose incoming character is non-zero start a run
(setting updateLine) and jump past it (the source's x += len - 1 plus the
loop increment).  Returns the final updateLine flag.  Structural fuel
stands for the loop counter; callers pass fuel ≥ columnsToUpdate. -/
def scanRowAux (newLine : Nat → Character) (mask : Nat → Bool) (ctu : Nat) :
    Nat → Bool → Nat → Bool
  | _, updateLine, 0 => updateLine
  | x, updateLine, Nat.succ fuel =>
    if x < ctu then
      if mask x then
        let c := (newLine x).character
        if c = 0 then
          scanRowAux newLine mask ctu (x + 1) updateLine fuel
        else
          let len := runLenAux newLine mask (newLine x).foregroundColor
            (newLine x).backgroundColor (newLine x).rendition c
            ((newLine (x + 1)).character == 0) ctu x 1 ctu
          scanRowAux newLine mask ctu (x + len) true fuel
      else
        scanRowAux newLine mask ctu (x + 1) updateLine fuel
    else updateLine

/-- The per-row dirty verdict of updateImage: the scanning loop (skipped
entirely while _resizing), or-ed with the double-height line attribute
when _lineProperties.count() > y. -/
def updateImageRowDirty (td : TerminalDisplay) (newimg : Nat → Character)
    (wcolsN ctu y : Nat) : Bool :=
  let newLine := fun x => newimg (y * wcolsN + x)
  let mask := fun x => dirtyMask td newimg wcolsN ctu y x
  (if td.resizing then false else scanRowAux newLine mask ctu 0 false ctu) ||
    (decide (y < td.linePropertiesCount) && (td.lineProperties y).doubleHeight)

/-- The per-row memcpy of updateImage, over all rows: for every
y < linesToUpdate the source copies columnsToUpdate cells of the incoming
row (stride wcolsN) over the displayed row (stride _columns); expressed
pointwise on flat indices. -/
def copyRows (img : Nat → Character) (newimg : Nat → Character)
    (cols wcolsN ctu lt : Nat) : Nat → Character :=
  fun i =>
    if i / cols < lt ∧ i % cols < ctu then
      newimg ((i / cols) * wcolsN + i % cols)
    else img i

/-- Result of one TerminalDisplay::updateImage call: the new widget state,
the dirty region handed to update() as the list of accumulated QRects,
and the blit instruction of the initial scrollImage call. -/
structure UpdateImageResult where
  td : TerminalDisplay
  dirtyRegion : List QRect
  scrollBlit : Option ScrollBlit

/-- TerminalDisplay::updateImage.  Inputs: the pending scroll count of the
screen window, the incoming image (flat, stride = window columns) and the
window dimensions.  Steps modelled, in source order: the scrollImage
prelude; linesToUpdate = qMin(_lines, qMax(0, windowLines)) and likewise
columnsToUpdate; per row the dirty mask, the scanning loop (skipped while
_resizing), the double-height forcing, the accumulation of the full-width
row rectangle, and the memcpy of the incoming row over the displayed row;
then the two trailing rectangles marking the shrunk area when the new
used size is smaller, and the update of _usedLines/_usedColumns. -/
def updateImage (td0 : TerminalDisplay) (scrollCount : Int)
    (newimg : Nat → Character) (wlines wcols : Int) : UpdateImageResult :=
  let td := (scrollImage td0 scrollCount).1
  let blit := (scrollImage td0 scrollCount).2
  let wcolsN := wcols.toNat
  let lt := min td.lines wlines.toNat
  let ctu := min td.columns wcolsN
  let rowRects := (List.range lt).filterMap (fun y =>
    if updateImageRowDirty td newimg wcolsN ctu y then
      some { x := td.bX + td.tLx,
             y := td.bY + td.tLy + (td.fontHeight * y : Nat),
             w := (td.fontWidth * ctu : Nat),
             h := (td.fontHeight : Nat) }
    else none)
  let tailRects :=
    (if lt < td.usedLines then
      [({ x := td.bX + td.tLx,
          y := td.bY + td.tLy + (td.fontHeight * lt : Nat),
          w := (td.fontWidth * td.columns : Nat),
          h := (td.fontHeight * (td.usedLines - lt) : Nat) } : QRect)]
     else []) ++
    (if ctu < td.usedColumns then
      [({ x := td.bX + td.tLx + (ctu * td.fontWidth : Nat),
          y := td.bY + td.tLy,
          w := (td.fontWidth * (td.usedColumns - ctu) : Nat),
          h := (td.fontHeight * td.lines : Nat) } : QRect)]
     else [])
  { td := { td with
      image := copyRows td.image newimg td.columns wcolsN ctu lt,
      usedLines := lt,
      usedColumns := ctu },
    dirtyRegion := rowRects ++ tailRects,
    scrollBlit := blit }

/-- Containment of the pixel box of cell (x, y) in one rectangle of a
dirty region. -/
def rectContainsCell (td : TerminalDisplay) (r : QRect) (x y : Nat) : Bool :=
  r.x ≤ td.bX + td.tLx + (td.fontWidth * x : Nat) &&
  td.bX + td.tLx + (td.fontWidth * (x + 1) : Nat) ≤ r.x + r.w &&
  r.y ≤ td.bY + td.tLy + (td.fontHeight * y : Nat) &&
  td.bY + td.tLy + (td.fontHeight * (y + 1) : Nat) ≤ r.y + r.h

/-- A cell lies within a dirty region when some accumulated rectangle
contains its pixel box. -/
def cellInRegion (td : TerminalDisplay) (region : List QRect)
    (x y : Nat) : Prop :=
  ∃ r ∈ region, rectContainsCell td r x y = true

instance (td : TerminalDisplay) (region : List QRect) (x y : Nat) :
    Decidable (cellInRegion td region x y) :=
  inferInstanceAs (Decidable (∃ r ∈ region, _ = true))

/-- TerminalDisplay::characterPosition: widget point to (line, column),
with C integer division (truncation toward zero, Int.tdiv) and the four
clamping steps in source order. -/
def characterPosition (td : TerminalDisplay) (p : QPoint) : Int × Int :=
  let column0 := Int.tdiv (p.x - td.tLx - td.bX) td.fontWidth
  let line0 := Int.tdiv (p.y - td.tLy - td.bY) td.fontHeight
  let line1 := if line0 < 0 then 0 else line0
  let column1 := if column0 < 0 then 0 else column0
  let line2 := if (td.usedLines : Int) ≤ line1 then (td.usedLines : Int) - 1 else line1
  let column2 := if (td.usedColumns : Int) ≤ column1 then (td.usedColumns : Int) - 1
    else column1
  (line2, column2)

/-- TerminalDisplay::charClass: whitespace maps to ' ' (32), letters,
digits and members of the configurable word-character set map to 'a'
(97), everything else to 1. -/
def charClass (cl : CharClassifier) (ch : Nat) : Nat :=
  if cl.isSpace ch then 32
  else if cl.isLetterOrNumber ch || cl.wordCharactersContains ch then 97
  else 1

/-- The source's (row, column) strict reading-order test
a.y < b.y || a.y == b.y && a.x < b.x. -/
def readingLTb (a b : QPoint) : Bool :=
  a.y < b.y || (a.y == b.y && a.x < b.x)

/-- Reading-order comparison of two points, (row, column) ascending. -/
def readingLE (a b : QPoint) : Prop :=
  a.y < b.y ∨ (a.y = b.y ∧ a.x ≤ b.x)

instance (a b : QPoint) : Decidable (readingLE a b) :=
  inferInstanceAs (Decidable (_ ∨ _))

/-- The leftward word-boundary walk shared by extendSelection,
mouseDoubleClickEvent and mouseTripleClickEvent: while the point can move
left (x > 0, or y > 0 on a row continuing a wrapped line) and the cell
before position i keeps the class of the start cell, step left, wrapping
x to wrapX (usedColumns-1 in extendSelection and mouseDoubleClickEvent,
_columns-1 in mouseTripleClickEvent) when crossing a row.  Returns the
final (i, x, y).  Structural fuel stands for the loop counter; callers
pass fuel large enough for the walk to stop on its own guard. -/
def wordExpandLeftAux (td : TerminalDisplay) (selClass : Nat) (wrapX : Int) :
    Int → Int → Int → Nat → Int × Int × Int
  | i, x, y, 0 => (i, x, y)
  | i, x, y, Nat.succ fuel =>
    if (0 < x || (0 < y && (td.lineProperties (y - 1).toNat).wrapped)) &&
       (charClass td.classifier (td.image (i - 1).toNat).character == selClass) then
      if 0 < x then wordExpandLeftAux td selClass wrapX (i - 1) (x - 1) y fuel
      else wordExpandLeftAux td selClass wrapX (i - 1) wrapX (y - 1) fuel
    else (i, x, y)

/-- The rightward word-boundary walk shared by extendSelection and
mouseDoubleClickEvent: while the point can move right (x < usedColumns-1,
or y < usedLines-1 on a row flagged wrapped) and the cell after position
i keeps the class of the start cell, step right, wrapping x to 0 when
crossing a row.  Returns the final (i, x, y). -/
def wordExpandRightAux (td : TerminalDisplay) (selClass : Nat) :
    Int → Int → Int → Nat → Int × Int × Int
  | i, x, y, 0 => (i, x, y)
  | i, x, y, Nat.succ fuel =>
    if (x < (td.usedColumns : Int) - 1 ||
        (y < (td.usedLines : Int) - 1 && (td.lineProperties y.toNat).wrapped)) &&
       (charClass td.classifier (td.image (i + 1).toNat).character == selClass) then
      if x < (td.usedColumns : Int) - 1 then
        wordExpandRightAux td selClass (i + 1) (x + 1) y fuel
      else wordExpandRightAux td selClass (i + 1) 0 (y + 1) fuel
    else (i, x, y)

/-- The upward logical-line walk: while y > 0 and row y-1 is flagged
wrapped, step up (the loops of mouseTripleClickEvent and of
extendSelection's line mode). -/
def lineWalkUp (props : Nat → LineProperty) : Int → Nat → Int
  | y, 0 => y
  | y, Nat.succ fuel =>
    if 0 < y && (props (y - 1).toNat).wrapped then lineWalkUp props (y - 1) fuel
    else y

/-- The downward logical-line walk: while y < bound-1 and row y is flagged
wrapped, step down (bound is _lines in mouseTripleClickEvent and
_usedLines in extendSelection's line mode). -/
def lineWalkDown (props : Nat → LineProperty) (bound : Int) : Int → Nat → Int
  | y, 0 => y
  | y, Nat.succ fuel =>
    if y < bound - 1 && (props y.toNat).wrapped then
      lineWalkDown props bound (y + 1) fuel
    else y

/-- Modelled from the spec: the toolkit scrollbar setValue clamps the
requested value into the scrollbar's range (the scrollbar itself is a
toolkit collaborator, spec §1/§6). -/
def scrollBarSetValue (td : TerminalDisplay) (v : Int) : Int :=
  max td.scrollMin (min td.scrollMax v)

/-- The yMouseScroll constant. -/
def yMouseScroll : Int := 1

/-- The mouse-position clamp at the top of extendSelection, four
sequential adjustments keeping the position inside the text area. -/
def clampSelectionPos (td : TerminalDisplay) (pos : QPoint) : QPoint :=
  let x1 := if pos.x < td.tLx + td.bX then td.tLx + td.bX else pos.x
  let x2 := if td.tLx + td.bX + (td.usedColumns * td.fontWidth : Nat) - 1 < x1
    then td.tLx + td.bX + (td.usedColumns * td.fontWidth : Nat) else x1
  let y1 := if pos.y < td.tLy + td.bY then td.tLy + td.bY else pos.y
  let y2 := if td.tLy + td.bY + (td.usedLines * td.fontHeight : Nat) - 1 < y1
    then td.tLy + td.bY + (td.usedLines * td.fontHeight : Nat) - 1 else y1
  { x := x2, y := y2 }

/-- The edge auto-scroll of extendSelection: at the bottom text row the
scrollbar is advanced by yMouseScroll, at the top row moved back. -/
def extendScrolled (td : TerminalDisplay) (pos : QPoint) : TerminalDisplay :=
  let p := clampSelectionPos td pos
  let td1 :=
    if p.y == td.tLy + td.bY + (td.usedLines * td.fontHeight : Nat) - 1 then
      { td with scrollValue := scrollBarSetValue td (td.scrollValue + yMouseScroll) }
    else td
  if p.y == td.tLy + td.bY then
    { td1 with scrollValue := scrollBarSetValue td1 (td1.scrollValue - yMouseScroll) }
  else td1

/-- extendSelection's here: the character cell of the clamped mouse
position, as QPoint(charColumn, charLine). -/
def selHere (td : TerminalDisplay) (pos : QPoint) : QPoint :=
  let lc := characterPosition td (clampSelectionPos td pos)
  { x := lc.2, y := lc.1 }

/-- extendSelection's _iPntSelCorr: the anchor translated by the current
scrollbar value (read after the edge auto-scroll). -/
def selAnchorCorr (td : TerminalDisplay) (pos : QPoint) : QPoint :=
  { x := td.iPntSel.x, y := td.iPntSel.y - (extendScrolled td pos).scrollValue }

/-- extendSelection's _pntSelCorr: the previous live point translated by
the current scrollbar value. -/
def selOldCorr (td : TerminalDisplay) (pos : QPoint) : QPoint :=
  { x := td.pntSel.x, y := td.pntSel.y - (extendScrolled td pos).scrollValue }

/-- extendSelection's left_not_right: the live point is before the anchor
in reading order. -/
def selLeftNotRight (td : TerminalDisplay) (pos : QPoint) : Bool :=
  readingLTb (selHere td pos) (selAnchorCorr td pos)

/-- extendSelection's old_left_not_right: the previous live point was
before the anchor in reading order. -/
def selOldLeftNotRight (td : TerminalDisplay) (pos : QPoint) : Bool :=
  readingLTb (selOldCorr td pos) (selAnchorCorr td pos)

/-- The space-skipping loop of extendSelection's default (non-word,
non-line) mode: while right can move right within the row (not wrapped,
not the last used row) and the next cell is still of the space class,
advance.  Returns the final (i, x); y does not change in this loop. -/
def freeSkipSpacesAux (td : TerminalDisplay) (selClass : Nat) (y : Int) :
    Int → Int → Nat → Int × Int
  | i, x, 0 => (i, x)
  | i, x, Nat.succ fuel =>
    if x < (td.usedColumns : Int) - 1 &&
       (charClass td.classifier (td.image (i + 1).toNat).character == selClass) &&
       y < (td.usedLines : Int) - 1 && !(td.lineProperties y.toNat).wrapped then
      freeSkipSpacesAux td selClass y (i + 1) (x + 1) fuel
    else (i, x)

/-- The right end of the default-mode (non-word, non-line) selection in
extendSelection: the anchor or the live point (whichever is right), with
the trailing-space heuristic applied when the cell before it is of space
class: skip the spaces, and either reset to the unmodified right point
(when the skip stopped before the last column) or step one further. -/
def selFreeRight (td : TerminalDisplay) (pos : QPoint) : QPoint :=
  let here0 := selHere td pos
  let anchor := selAnchorCorr td pos
  let right0 := if selLeftNotRight td pos then anchor else here0
  if 0 < right0.x ∧ td.columnSelectionMode = false then
    let i := loc td right0.x right0.y
    if 0 ≤ i ∧ i ≤ (td.imageSize : Int) then
      let selClass := charClass td.classifier (td.image (i - 1).toNat).character
      if selClass = 32 then
        let r := freeSkipSpacesAux td selClass right0.y i right0.x
          (td.usedColumns + 1)
        if r.2 < (td.usedColumns : Int) - 1 then right0
        else { x := r.2 + 1, y := right0.y }
      else right0
    else right0
  else right0

/-- The word-mode branch of extendSelection: expand the left point to the
start of its word and the right point to the end of its word, and return
(here, ohere) with ohere already advanced by one column (the source's
ohere.rx()++). -/
def extendWordMode (td : TerminalDisplay) (pos : QPoint) : QPoint × QPoint :=
  let here0 := selHere td pos
  let anchor := selAnchorCorr td pos
  let lnr := selLeftNotRight td pos
  let left0 := if lnr then here0 else anchor
  let iL := loc td left0.x left0.y
  let left :=
    if 0 ≤ iL ∧ iL ≤ (td.imageSize : Int) then
      let selClass := charClass td.classifier (td.image iL.toNat).character
      let r := wordExpandLeftAux td selClass ((td.usedColumns : Int) - 1) iL
        left0.x left0.y ((left0.y.toNat + 1) * (td.usedColumns + 1) + left0.x.toNat + 1)
      (⟨r.2.1, r.2.2⟩ : QPoint)
    else left0
  let right0 := if lnr then anchor else here0
  let iR := loc td right0.x right0.y
  let right :=
    if 0 ≤ iR ∧ iR ≤ (td.imageSize : Int) then
      let selClass := charClass td.classifier (td.image iR.toNat).character
      let r := wordExpandRightAux td selClass iR right0.x right0.y
        ((td.usedLines + 1) * (td.usedColumns + 2))
      (⟨r.2.1, r.2.2⟩ : QPoint)
    else right0
  if lnr then (left, { x := right.x + 1, y := right.y })
  else (right, { x := left.x + 1, y := left.y })

/-- The line-mode branch of extendSelection: the upper point walks to the
start of its logical line and column 0, the lower point to the end of its
logical line (bounded by _usedLines) and column usedColumns-1.  Returns
(here, ohere with the source's ohere.rx()++ applied, newSelBegin). -/
def extendLineMode (td : TerminalDisplay) (pos : QPoint) :
    QPoint × QPoint × QPoint :=
  let here0 := selHere td pos
  let anchor := selAnchorCorr td pos
  let anb : Bool := here0.y < anchor.y
  let above0 := if anb then here0 else anchor
  let below0 := if anb then anchor else here0
  let aboveY := lineWalkUp td.lineProperties above0.y above0.y.toNat
  let belowY := lineWalkDown td.lineProperties (td.usedLines : Int) below0.y
    ((td.usedLines : Int) - below0.y).toNat
  let above : QPoint := { x := 0, y := aboveY }
  let below : QPoint := { x := (td.usedColumns : Int) - 1, y := belowY }
  if anb then (above, { x := below.x + 1, y := below.y }, below)
  else (below, { x := above.x + 1, y := above.y }, above)

/-- The selection calls a mouse handler passes to the screen window: an
optional setSelectionStart(x, y, columnMode) and the
setSelectionEnd(x, y). -/
structure SelectionCalls where
  start : Option (Int × Int × Bool)
  endSel : Int × Int
deriving DecidableEq, Repr

/-- TerminalDisplay::extendSelection, the calls it passes to the screen
window.  The mouse position is clamped to the text area, the edge
auto-scroll applied, the cell coordinate taken; the word / line / default
mode computes (here, ohere, offset, swapping); the two early returns emit
nothing; otherwise setSelectionStart is issued when the drag is beginning
(_actSel < 2) or the ends are swapping, and setSelectionEnd always, with
the column-selection variant passing the points unshifted. -/
def extendSelectionCalls (td : TerminalDisplay) (pos : QPoint) :
    Option SelectionCalls :=
  let scroll := td.scrollValue
  let td2 := extendScrolled td pos
  let here0 := selHere td pos
  let anchor := selAnchorCorr td pos
  let old := selOldCorr td pos
  let lnr := selLeftNotRight td pos
  let olnr := selOldLeftNotRight td pos
  let fright := selFreeRight td pos
  let hw := extendWordMode td pos
  let hl := extendLineMode td pos
  let here1 :=
    if td.lineSelectionMode then hl.1
    else if td.wordSelectionMode then hw.1
    else if lnr then here0 else fright
  let ohere1 :=
    if td.lineSelectionMode then hl.2.1
    else if td.wordSelectionMode then hw.2
    else if lnr then fright else anchor
  let offset : Int :=
    if td.lineSelectionMode || td.wordSelectionMode then 0
    else if lnr then 0 else -1
  let swapping :=
    if td.lineSelectionMode then !(td.tripleSelBegin == hl.2.2)
    else lnr != olnr
  if here1 == old ∧ scroll == td2.scrollValue then none
  else if here1 == ohere1 then none
  else
    let colMode := td.columnSelectionMode && !td.lineSelectionMode &&
      !td.wordSelectionMode
    let startCall :=
      if td.actSel < 2 || swapping then
        some (if colMode then (ohere1.x, ohere1.y, true)
              else (ohere1.x - 1 - offset, ohere1.y, false))
      else none
    let endCall :=
      if colMode then (here1.x, here1.y) else (here1.x + offset, here1.y)
    some { start := startCall, endSel := endCall }

/-- TerminalDisplay::extendSelection, the state update: the scrollbar
moves at the text-area edges, the line mode records _tripleSelBegin even
on the early returns, and a completed extension records
_actSel = 2 and the new live point _pntSel (re-translated to absolute
coordinates). -/
def extendSelectionState (td : TerminalDisplay) (pos : QPoint) :
    TerminalDisplay :=
  let scroll := td.scrollValue
  let td2 := extendScrolled td pos
  let here0 := selHere td pos
  let anchor := selAnchorCorr td pos
  let old := selOldCorr td pos
  let lnr := selLeftNotRight td pos
  let fright := selFreeRight td pos
  let hw := extendWordMode td pos
  let hl := extendLineMode td pos
  let here1 :=
    if td.lineSelectionMode then hl.1
    else if td.wordSelectionMode then hw.1
    else if lnr then here0 else fright
  let ohere1 :=
    if td.lineSelectionMode then hl.2.1
    else if td.wordSelectionMode then hw.2
    else if lnr then fright else anchor
  let td3 :=
    if td.lineSelectionMode then { td2 with tripleSelBegin := hl.2.2 } else td2
  if here1 == old ∧ scroll == td2.scrollValue then td3
  else if here1 == ohere1 then td3
  else
    { td3 with
        actSel := 2,
        pntSel := { x := here1.x, y := here1.y + td2.scrollValue } }

/-- TerminalDisplay::extendSelection: the updated widget state together
with the selection calls passed to the screen window. -/
def extendSelection (td : TerminalDisplay) (pos : QPoint) :
    TerminalDisplay × Option SelectionCalls :=
  (extendSelectionState td pos, extendSelectionCalls td pos)

/-- TerminalDisplay::mouseDoubleClickEvent for a left-button event: when
mouse marks are off and shift is not held the event is forwarded to the
terminal program and no selection is made; otherwise the clicked cell's
class is taken, the word boundaries are found by the two walks, the
trailing '@' is excluded from a multi-cell word, and the word is
communicated as the selection. -/
def mouseDoubleClickEvent (td : TerminalDisplay) (pos : QPoint)
    (shiftMod : Bool) : TerminalDisplay × Option SelectionCalls :=
  let lc := characterPosition td pos
  let p : QPoint := { x := lc.2, y := lc.1 }
  if !td.mouseMarks && !shiftMod then (td, none)
  else
    let i0 := loc td p.x p.y
    let iPntSel1 : QPoint := { x := p.x, y := p.y + td.scrollValue }
    let selClass := charClass td.classifier (td.image i0.toNat).character
    let L := wordExpandLeftAux td selClass ((td.usedColumns : Int) - 1) i0 p.x
      p.y ((p.y.toNat + 1) * (td.usedColumns + 1) + p.x.toNat + 1)
    let bgn : QPoint := { x := L.2.1, y := L.2.2 }
    let R := wordExpandRightAux td selClass i0 p.x p.y
      ((td.usedLines + 1) * (td.usedColumns + 2))
    let endX :=
      if (td.image R.1.toNat).character = 64 ∧ 0 < R.2.1 - bgn.x then R.2.1 - 1
      else R.2.1
    ({ td with wordSelectionMode := true, actSel := 2, iPntSel := iPntSel1 },
     some { start := some (bgn.x, bgn.y, false), endSel := (endX, R.2.2) })

/-- TerminalDisplay::mouseTripleClickEvent: the clicked row walks up to
the start of its logical line; the selection starts at column 0 of that
row (or, with the cut-to-beginning-of-line option, at the clicked word's
start); the row then walks down to the end of the logical line (bounded
by _lines) and the selection ends at column _columns-1 of that row. -/
def mouseTripleClickEvent (td : TerminalDisplay) (pos : QPoint) :
    TerminalDisplay × SelectionCalls :=
  let lc := characterPosition td pos
  let p0 : QPoint := { x := lc.2, y := lc.1 }
  let y1 := lineWalkUp td.lineProperties p0.y p0.y.toNat
  let startTSB :=
    if td.cutToBeginningOfLine then
      let i0 := loc td p0.x y1
      let selClass := charClass td.classifier (td.image i0.toNat).character
      let L := wordExpandLeftAux td selClass ((td.columns : Int) - 1) i0 p0.x y1
        ((y1.toNat + 1) * (td.columns + 1) + p0.x.toNat + 1)
      (⟨L.2.1, L.2.2⟩ : QPoint)
    else (⟨0, y1⟩ : QPoint)
  let y2 := lineWalkDown td.lineProperties (td.lines : Int) startTSB.y
    ((td.lines : Int) - startTSB.y).toNat
  ({ td with
      lineSelectionMode := true,
      wordSelectionMode := false,
      actSel := 2,
      tripleSelBegin := startTSB,
      iPntSel := { x := p0.x, y := y2 + td.scrollValue } },
   { start := some (startTSB.x, startTSB.y, false),
     endSel := ((td.columns : Int) - 1, y2) })

/-- The first physical row of the logical line selected by a triple
click: the clicked row walked up through the wrapped flags (the first
loop of mouseTripleClickEvent). -/
def tripleClickLineStart (td : TerminalDisplay) (pos : QPoint) : Int :=
  lineWalkUp td.lineProperties (characterPosition td pos).1
    (characterPosition td pos).1.toNat

/-- The last physical row of the logical line selected by a triple click
(with the cut-to-beginning-of-line option off): the line start walked
down through the wrapped flags, bounded by _lines (the second loop of
mouseTripleClickEvent). -/
def tripleClickLineEnd (td : TerminalDisplay) (pos : QPoint) : Int :=
  lineWalkDown td.lineProperties (td.lines : Int) (tripleClickLineStart td pos)
    ((td.lines : Int) - tripleClickLineStart td pos).toNat

/-! ### Concrete fixtures

Concrete states used to evaluate the definitions on the spec's scenarios
and to exhibit counterexamples.  asciiClassifier instantiates the
injected classifier with the ASCII fragment of the toolkit predicates and
the source's default word-character set ":@-./_~". -/

/-- ASCII instantiation of the character classifier: space and control
whitespace; letters and digits; the default word characters
":@-./_~" (58, 64, 45, 46, 47, 95, 126). -/
def asciiClassifier : CharClassifier where
  isSpace := fun c => c == 32 || (9 ≤ c && c ≤ 13)
  isLetterOrNumber := fun c =>
    (48 ≤ c && c ≤ 57) || (65 ≤ c && c ≤ 90) || (97 ≤ c && c ≤ 122)
  wordCharactersContains := fun c =>
    c == 58 || c == 64 || c == 45 || c == 46 || c == 47 || c == 95 || c == 126

/-- The default blank cell (space character, default colors, no
rendition), as written by clearImage. -/
def blankChar : Character :=
  { character := 32, rendition := 0, foregroundColor := 0, backgroundColor := 0 }

/-- A baseline widget state: blank allocated image, unit font metrics and
zero offsets (so pixel coordinates coincide with cell coordinates),
default modes as initialized by the constructor. -/
def baseTD : TerminalDisplay where
  image := fun _ => blankChar
  imageAllocated := true
  imageSize := 0
  lines := 0
  columns := 0
  usedLines := 0
  usedColumns := 0
  lineProperties := fun _ => { wrapped := false, doubleHeight := false }
  linePropertiesCount := 0
  resizing := false
  imPreeditLength := 0
  imStartLine := 0
  imStart := 0
  imEnd := 0
  imSelStart := 0
  imSelEnd := 0
  fontWidth := 1
  fontHeight := 1
  bX := 0
  bY := 0
  tLx := 0
  tLy := 0
  scrollValue := 0
  scrollMin := 0
  scrollMax := 0
  iPntSel := ⟨0, 0⟩
  pntSel := ⟨0, 0⟩
  tripleSelBegin := ⟨0, 0⟩
  actSel := 0
  wordSelectionMode := false
  lineSelectionMode := false
  columnSelectionMode := false
  cutToBeginningOfLine := false
  mouseMarks := true
  classifier := asciiClassifier

/-- A 2-row, 1-column grid with distinct cells 'A', 'B'. -/
def tdTwoRows : TerminalDisplay :=
  { baseTD with
      image := fun i =>
        { character := 65 + i, rendition := 0, foregroundColor := 0,
          backgroundColor := 0 },
      imageSize := 2, lines := 2, columns := 1, usedLines := 2,
      usedColumns := 1, linePropertiesCount := 2 }

/-- A 24-row, 2-column grid whose rows carry distinct markers 0..23 as
their cells' character codes. -/
def tdMarkers : TerminalDisplay :=
  { baseTD with
      image := fun i =>
        { character := i / 2, rendition := 0, foregroundColor := 0,
          backgroundColor := 0 },
      imageSize := 48, lines := 24, columns := 2, usedLines := 24,
      usedColumns := 2, linePropertiesCount := 24 }

/-- An 80x24 grid filled with spaces. -/
def tdSpaces80x24 : TerminalDisplay :=
  { baseTD with
      imageSize := 1920, lines := 24, columns := 80, usedLines := 24,
      usedColumns := 80, linePropertiesCount := 24 }

/-- The incoming 80x24 grid that differs from all-spaces only at column
10 of row 5, which holds 'X'. -/
def newImgX : Nat → Character := fun i =>
  if i == 5 * 80 + 10 then
    { character := 88, rendition := 0, foregroundColor := 0,
      backgroundColor := 0 }
  else blankChar

/-- A 1x1 displayed grid holding 'A', in the middle of a resize
(_resizing set, as during the synchronous update triggered from
updateImageSize). -/
def tdResizing : TerminalDisplay :=
  { baseTD with
      image := fun _ =>
        { character := 65, rendition := 0, foregroundColor := 0,
          backgroundColor := 0 },
      imageSize := 1, lines := 1, columns := 1, usedLines := 1,
      usedColumns := 1, linePropertiesCount := 1, resizing := true }

/-- The incoming 1x1 grid holding 'X'. -/
def newImgSingleX : Nat → Character := fun _ =>
  { character := 88, rendition := 0, foregroundColor := 0,
    backgroundColor := 0 }

/-- A 1-row, 2-column displayed grid holding "AB". -/
def tdAB : TerminalDisplay :=
  { baseTD with
      image := fun i =>
        { character := 65 + i, rendition := 0, foregroundColor := 0,
          backgroundColor := 0 },
      imageSize := 2, lines := 1, columns := 2, usedLines := 1,
      usedColumns := 2, linePropertiesCount := 1 }

/-- The incoming 1x2 grid holding "XB". -/
def newImgXB : Nat → Character := fun i =>
  if i == 0 then
    { character := 88, rendition := 0, foregroundColor := 0,
      backgroundColor := 0 }
  else
    { character := 66, rendition := 0, foregroundColor := 0,
      backgroundColor := 0 }

/-- A 10x5 grid of word characters ('a' everywhere) with a selection in
progress: anchor at (5,2), previous live point at (6,2), drag active
(_actSel = 2), default (non-word, non-line, non-column) mode. -/
def tdDragLeft : TerminalDisplay :=
  { baseTD with
      image := fun _ =>
        { character := 97, rendition := 0, foregroundColor := 0,
          backgroundColor := 0 },
      imageSize := 50, lines := 5, columns := 10, usedLines := 5,
      usedColumns := 10, linePropertiesCount := 5,
      iPntSel := ⟨5, 2⟩, pntSel := ⟨6, 2⟩, actSel := 2 }

/-- Like tdDragLeft but with the drag just beginning (_actSel = 1) and
the previous live point at the anchor, for a rightward drag. -/
def tdDragRight : TerminalDisplay :=
  { baseTD with
      image := fun _ =>
        { character := 97, rendition := 0, foregroundColor := 0,
          backgroundColor := 0 },
      imageSize := 50, lines := 5, columns := 10, usedLines := 5,
      usedColumns := 10, linePropertiesCount := 5,
      iPntSel := ⟨2, 2⟩, pntSel := ⟨2, 2⟩, actSel := 1 }

/-- A 6-row, 8-column grid in which physical row 4 is flagged wrapped
into row 5: rows 4 and 5 form one logical line. -/
def tdWrapped45 : TerminalDisplay :=
  { baseTD with
      imageSize := 48, lines := 6, columns := 8, usedLines := 6,
      usedColumns := 8, linePropertiesCount := 6,
      lineProperties := fun y => { wrapped := y == 4, doubleHeight := false } }

/-- The character codes of "hello world". -/
def helloText : List Nat := [104, 101, 108, 108, 111, 32, 119, 111, 114, 108, 100]

/-- An 11x1 grid whose single row holds "hello world". -/
def tdHello : TerminalDisplay :=
  { baseTD with
      image := fun i =>
        if h : i < 11 then
          { character := helloText.get ⟨i, h⟩, rendition := 0,
            foregroundColor := 0, backgroundColor := 0 }
        else blankChar,
      imageSize := 11, lines := 1, columns := 11, usedLines := 1,
      usedColumns := 11, linePropertiesCount := 1 }

/-! ### Theorems -/

/-- Pointwise form of the n > 0 branch of scrollImage's memmove. -/
theorem scrollImageFn_pos_apply (td : TerminalDisplay) (n : Int)
    (ha : td.imageAllocated = true) (h0 : 0 < n)
    (h1 : n.natAbs < td.usedLines) (i : Nat) :
    scrollImageFn td n i =
      if i < (td.usedLines - n.natAbs) * td.usedColumns then
        td.image (i + n.natAbs * td.usedColumns)
      else td.image i := by
  have hc : ¬(n = 0 ∨ td.imageAllocated = false ∨ td.usedLines ≤ n.natAbs) := by
    push_neg
    exact ⟨by omega, by simp [ha], by omega⟩
  unfold scrollImageFn
  rw [if_neg hc, if_pos h0]

/-- Pointwise form of the n < 0 branch of scrollImage's memmove. -/
theorem scrollImageFn_neg_apply (td : TerminalDisplay) (n : Int)
    (ha : td.imageAllocated = true) (h0 : n < 0)
    (h1 : n.natAbs < td.usedLines) (i : Nat) :
    scrollImageFn td n i =
      if n.natAbs * td.usedColumns ≤ i ∧ i < td.usedLines * td.usedColumns then
        td.image (i - n.natAbs * td.usedColumns)
      else td.image i := by
  have hc : ¬(n = 0 ∨ td.imageAllocated = false ∨ td.usedLines ≤ n.natAbs) := by
    push_neg
    exact ⟨by omega, by simp [ha], by omega⟩
  have h2 : ¬(0 < n) := by omega
  unfold scrollImageFn
  rw [if_neg hc, if_neg h2]

/-- C10: scrollImage called with n = 0, with no grid allocated, or with
|n| ≥ _usedLines (its stated precondition violated) returns immediately:
the displayed grid's contents are entirely unchanged and no blit is
issued. -/
theorem scrollImage_guard_noop (td : TerminalDisplay) (n : Int)
    (h : n = 0 ∨ td.imageAllocated = false ∨ td.usedLines ≤ n.natAbs) :
    scrollImage td n = (td, none) := by
  unfold scrollImage scrollImageFn scrollImageBlit
  rw [if_pos h, if_pos h]

/-- Witness for scrollImage_guard_noop: a 2-row grid with shift 5 (and
with shift 0) is returned unchanged. -/
theorem scrollImage_guard_noop_witness :
    (tdTwoRows.usedLines ≤ (5 : Int).natAbs ∧
      scrollImage tdTwoRows 5 = (tdTwoRows, none)) ∧
    scrollImage tdTwoRows 0 = (tdTwoRows, none) :=
  ⟨⟨by decide, scrollImage_guard_noop tdTwoRows 5 (Or.inr (Or.inr (by decide)))⟩,
   scrollImage_guard_noop tdTwoRows 0 (Or.inl rfl)⟩

/-- C4 counterexample: on the 2-row grid "A"/"B", scrolling by +1 and then
by -1 with no intervening update does not restore the original content:
row 0 held 'A' and now holds 'B' (the +1 shift physically discards the
top row, so the round trip cannot restore it). -/
theorem scrollImage_roundtrip_cex :
    ((scrollImage (scrollImage tdTwoRows 1).1 (-1)).1).image 0 ≠
      tdTwoRows.image 0 := by decide

/-- C4 (amended): scrolling by n and then by -n (0 < n < usedLines, no
intervening update) restores exactly the rows that stayed inside the
view: after +n then -n every cell from row n on is restored, and after
-n then +n every cell of the first usedLines - n rows is restored; the
|n| rows shifted out by the first call are not restored (see the
counterexample). -/
theorem scrollImage_roundtrip_kept_rows (td : TerminalDisplay) (n : Int)
    (ha : td.imageAllocated = true) (h0 : 0 < n)
    (h1 : n.natAbs < td.usedLines) :
    (∀ i, n.natAbs * td.usedColumns ≤ i → i < td.usedLines * td.usedColumns →
      ((scrollImage (scrollImage td n).1 (-n)).1).image i = td.image i) ∧
    (∀ i, i < (td.usedLines - n.natAbs) * td.usedColumns →
      ((scrollImage (scrollImage td (-n)).1 n).1).image i = td.image i) := by
  have hsub : (td.usedLines - n.natAbs) * td.usedColumns =
      td.usedLines * td.usedColumns - n.natAbs * td.usedColumns :=
    Nat.sub_mul _ _ _
  have hmul : n.natAbs * td.usedColumns ≤ td.usedLines * td.usedColumns :=
    Nat.mul_le_mul_right _ (le_of_lt h1)
  constructor
  · intro i hlo hhi
    show scrollImageFn { td with image := scrollImageFn td n } (-n) i = td.image i
    rw [scrollImageFn_neg_apply { td with image := scrollImageFn td n } (-n) ha
      (by omega) (by simpa [Int.natAbs_neg] using h1)]
    simp only [Int.natAbs_neg]
    rw [if_pos ⟨hlo, hhi⟩]
    show scrollImageFn td n (i - n.natAbs * td.usedColumns) = td.image i
    rw [scrollImageFn_pos_apply td n ha h0 h1]
    rw [if_pos (by omega)]
    congr 1
    omega
  · intro i hi
    show scrollImageFn { td with image := scrollImageFn td (-n) } n i = td.image i
    rw [scrollImageFn_pos_apply { td with image := scrollImageFn td (-n) } n ha
      h0 h1]
    rw [if_pos hi]
    show scrollImageFn td (-n) (i + n.natAbs * td.usedColumns) = td.image i
    rw [scrollImageFn_neg_apply td (-n) ha (by omega)
      (by simpa [Int.natAbs_neg] using h1)]
    simp only [Int.natAbs_neg]
    rw [if_pos (by constructor <;> omega)]
    congr 1
    omega

/-- Witness for scrollImage_roundtrip_kept_rows: on the 2-row grid, after
+1 then -1 the bottom row (flat index 1) is restored. -/
theorem scrollImage_roundtrip_kept_rows_witness :
    tdTwoRows.imageAllocated = true ∧ (0 : Int) < 1 ∧
    (1 : Int).natAbs < tdTwoRows.usedLines ∧
    ((scrollImage (scrollImage tdTwoRows 1).1 (-1)).1).image 1 =
      tdTwoRows.image 1 :=
  ⟨rfl, by decide, by decide,
   (scrollImage_roundtrip_kept_rows tdTwoRows 1 rfl (by decide) (by decide)).1 1
     (by decide) (by decide)⟩

/-- C5: scrollImage(+3) on a 24-row grid whose rows carry distinct
markers 0..23: the rows of the (usedLines - 3)-row block move so that
rows 0..20 now carry markers 3..23 (the bottom 3 rows are left
unspecified), and the blit instruction reports the full-width rectangle
of height (24-3) row-heights moved upward by 3 row-heights
(dy = -3 * fontHeight). -/
theorem scrollImage_plus3_scenario (td : TerminalDisplay)
    (ha : td.imageAllocated = true) (hL : td.usedLines = 24)
    (hC : 0 < td.usedColumns)
    (hm : ∀ i, i < 24 * td.usedColumns →
      (td.image i).character = i / td.usedColumns) :
    (∀ y, y < 21 → ∀ x, x < td.usedColumns →
      (((scrollImage td 3).1).image (y * td.usedColumns + x)).character =
        y + 3) ∧
    (scrollImage td 3).2 =
      some { rect := { x := td.bX, y := td.bY,
                       w := (td.usedColumns * td.fontWidth : Nat),
                       h := (21 * td.fontHeight : Nat) },
             dx := 0, dy := (td.fontHeight : Int) * (-3) } := by
  have h3 : (3 : Int).natAbs = 3 := rfl
  have hc : ¬((3 : Int) = 0 ∨ td.imageAllocated = false ∨
      td.usedLines ≤ (3 : Int).natAbs) := by
    push_neg
    exact ⟨by omega, by simp [ha], by omega⟩
  constructor
  · intro y hy x hx
    show (scrollImageFn td 3 (y * td.usedColumns + x)).character = y + 3
    rw [scrollImageFn_pos_apply td 3 ha (by omega) (by omega)]
    rw [h3, hL]
    have hstep : (y + 1) * td.usedColumns ≤ 21 * td.usedColumns :=
      Nat.mul_le_mul_right _ (by omega)
    have hstep1 : (y + 1) * td.usedColumns = y * td.usedColumns + td.usedColumns := by
      ring
    rw [if_pos (by omega)]
    have hidx : y * td.usedColumns + x + 3 * td.usedColumns =
        td.usedColumns * (y + 3) + x := by ring
    have hstep2 : (y + 4) * td.usedColumns ≤ 24 * td.usedColumns :=
      Nat.mul_le_mul_right _ (by omega)
    have hstep3 : (y + 4) * td.usedColumns =
        y * td.usedColumns + 4 * td.usedColumns := by ring
    rw [hm _ (by omega)]
    rw [hidx, Nat.mul_add_div hC, Nat.div_eq_of_lt hx, add_zero]
  · show scrollImageBlit td 3 = _
    unfold scrollImageBlit
    rw [if_neg hc, if_pos (by omega : (0 : Int) < 3), h3, hL]

/-- Witness for scrollImage_plus3_scenario: the marker grid; cell (1, 5)
after the shift carries marker 8, and the blit is the 21-row block moved
up 3 rows. -/
theorem scrollImage_plus3_scenario_witness :
    tdMarkers.usedLines = 24 ∧ 0 < tdMarkers.usedColumns ∧
    (((scrollImage tdMarkers 3).1).image (5 * tdMarkers.usedColumns + 1)).character =
      5 + 3 ∧
    (scrollImage tdMarkers 3).2 =
      some { rect := { x := tdMarkers.bX, y := tdMarkers.bY,
                       w := (tdMarkers.usedColumns * tdMarkers.fontWidth : Nat),
                       h := (21 * tdMarkers.fontHeight : Nat) },
             dx := 0, dy := (tdMarkers.fontHeight : Int) * (-3) } :=
  have h := scrollImage_plus3_scenario tdMarkers rfl rfl (by decide) (by decide)
  ⟨rfl, by decide, h.1 5 (by decide) 1 (by decide), h.2⟩

/-- C1: after one updateImage, every cell of the displayed grid inside
the linesToUpdate × columnsToUpdate region equals the corresponding cell
of the incoming grid: the per-row memcpy copies the incoming rows over
the displayed rows (used-column prefix only), whatever the previous
content and whatever the pending scroll count. -/
theorem updateImage_copies_incoming (td : TerminalDisplay) (sc : Int)
    (newimg : Nat → Character) (wlines wcols : Int) (y x : Nat)
    (hy : y < min td.lines wlines.toNat)
    (hx : x < min td.columns wcols.toNat) :
    (updateImage td sc newimg wlines wcols).td.image (y * td.columns + x) =
      newimg (y * wcols.toNat + x) := by
  have hxc : x < td.columns := lt_of_lt_of_le hx (min_le_left _ _)
  have hcols : 0 < td.columns := by omega
  show copyRows ((scrollImage td sc).1).image newimg td.columns wcols.toNat
      (min td.columns wcols.toNat) (min td.lines wlines.toNat)
      (y * td.columns + x) = newimg (y * wcols.toNat + x)
  unfold copyRows
  have hdiv : (y * td.columns + x) / td.columns = y := by
    rw [mul_comm, Nat.mul_add_div hcols, Nat.div_eq_of_lt hxc, add_zero]
  have hmod : (y * td.columns + x) % td.columns = x := by
    rw [mul_comm, Nat.mul_add_mod, Nat.mod_eq_of_lt hxc]
  rw [hdiv, hmod, if_pos ⟨hy, hx⟩]

/-- Witness for updateImage_copies_incoming: on the 80x24 all-space grid
with the incoming grid carrying 'X' at (10, 5), the displayed cell at
flat position 5*80+10 becomes the incoming cell. -/
theorem updateImage_copies_incoming_witness :
    5 < min tdSpaces80x24.lines (24 : Int).toNat ∧
    10 < min tdSpaces80x24.columns (80 : Int).toNat ∧
    (updateImage tdSpaces80x24 0 newImgX 24 80).td.image
        (5 * tdSpaces80x24.columns + 10) =
      newImgX (5 * (80 : Int).toNat + 10) :=
  ⟨by decide, by decide,
   updateImage_copies_incoming tdSpaces80x24 0 newImgX 24 80 5 10 (by decide)
     (by decide)⟩

/-- The scrollImage prelude with a zero scroll count leaves the state
unchanged. -/
theorem scrollImage_zero_fst (td : TerminalDisplay) : (scrollImage td 0).1 = td :=
  rfl

/-- Once the scanning loop has set updateLine it stays set. -/
theorem scanRowAux_acc_true (nl : Nat → Character) (mask : Nat → Bool)
    (ctu : Nat) : ∀ fuel x, scanRowAux nl mask ctu x true fuel = true := by
  intro fuel
  induction fuel with
  | zero => intro x; rfl
  | succ fuel ih =>
    intro x
    rw [scanRowAux]
    dsimp only
    split_ifs <;> first | exact ih _ | rfl

/-- The scanning loop sets updateLine whenever some masked position ahead
of it carries a non-zero incoming character: positions are only skipped
inside runs, and a run is only started (setting updateLine) at such a
position. -/
theorem scanRowAux_finds (nl : Nat → Character) (mask : Nat → Bool)
    (ctu x0 : Nat) (hm : mask x0 = true) (hc : (nl x0).character ≠ 0) :
    ∀ fuel x acc, x ≤ x0 → x0 < ctu → ctu - x ≤ fuel →
      scanRowAux nl mask ctu x acc fuel = true := by
  intro fuel
  induction fuel with
  | zero => intro x acc hx hlt hfuel; omega
  | succ fuel ih =>
    intro x acc hx hlt hfuel
    rw [scanRowAux]
    rw [if_pos (by omega : x < ctu)]
    by_cases hmx : mask x = true
    · rw [if_pos hmx]
      dsimp only
      by_cases hc0 : (nl x).character = 0
      · have hne : x ≠ x0 := fun h => hc (h ▸ hc0)
        rw [if_pos hc0]
        exact ih (x + 1) acc (by omega) hlt (by omega)
      · rw [if_neg hc0]
        exact scanRowAux_acc_true nl mask ctu fuel _
    · rw [if_neg hmx]
      have hne : x ≠ x0 := fun h => hmx (h ▸ hm)
      exact ih (x + 1) acc (by omega) hlt (by omega)

/-- A differing cell is marked dirty by the marking loop. -/
theorem cellDirty_of_diff (td : TerminalDisplay) (newimg : Nat → Character)
    (wcolsN ctu y x : Nat) (hx : x < ctu)
    (hdiff : newimg (y * wcolsN + x) ≠ td.image (y * td.columns + x)) :
    cellDirty td newimg wcolsN ctu y x = true := by
  unfold cellDirty
  simp [hx, hdiff, bne_iff_ne]

/-- C2 (amended): outside of a resize in progress, and for incoming grids
respecting the continuation-cell invariant (a code-0 cell always directly
follows a non-zero cell of its row), every cell at which the displayed
and incoming grids differ lies within the dirty region reported by
updateImage.  While a resize is in progress the scanning loop is skipped
and a full repaint is awaited instead, so the reported region can miss
the differing cells (see the counterexample); for a differing
continuation cell itself the one-column mask dilation makes its non-zero
head set the row dirty. -/
theorem updateImage_no_false_negatives (td : TerminalDisplay)
    (newimg : Nat → Character) (wlines wcols : Int)
    (hres : td.resizing = false)
    (hinv : ∀ y, y < min td.lines wlines.toNat →
      ∀ x, x < min td.columns wcols.toNat →
      (newimg (y * wcols.toNat + x)).character = 0 →
      0 < x ∧ (newimg (y * wcols.toNat + (x - 1))).character ≠ 0)
    (y x : Nat) (hy : y < min td.lines wlines.toNat)
    (hx : x < min td.columns wcols.toNat)
    (hdiff : newimg (y * wcols.toNat + x) ≠ td.image (y * td.columns + x)) :
    cellInRegion td (updateImage td 0 newimg wlines wcols).dirtyRegion x y := by
  have hcd : cellDirty td newimg wcols.toNat (min td.columns wcols.toNat) y x =
      true := cellDirty_of_diff td newimg _ _ y x hx hdiff
  have hscan : scanRowAux (fun x' => newimg (y * wcols.toNat + x'))
      (fun x' => dirtyMask td newimg wcols.toNat (min td.columns wcols.toNat) y x')
      (min td.columns wcols.toNat) 0 false (min td.columns wcols.toNat) = true := by
    by_cases hch : (newimg (y * wcols.toNat + x)).character = 0
    · obtain ⟨hxpos, hprev⟩ := hinv y hy x hx hch
      have hxx : x - 1 + 1 = x := by omega
      have hm : dirtyMask td newimg wcols.toNat (min td.columns wcols.toNat) y
          (x - 1) = true := by
        unfold dirtyMask
        rw [hxx, hcd]
        simp
      exact scanRowAux_finds _ _ _ (x - 1) hm hprev _ 0 false (by omega)
        (by omega) (by omega)
    · have hm : dirtyMask td newimg wcols.toNat (min td.columns wcols.toNat) y x =
          true := by
        unfold dirtyMask
        rw [hcd]
        simp
      exact scanRowAux_finds _ _ _ x hm hch _ 0 false (by omega) hx (by omega)
  have hrow : updateImageRowDirty td newimg wcols.toNat
      (min td.columns wcols.toNat) y = true := by
    unfold updateImageRowDirty
    rw [hres]
    dsimp only
    rw [hscan]
    simp
  refine ⟨{ x := td.bX + td.tLx,
            y := td.bY + td.tLy + (td.fontHeight * y : Nat),
            w := (td.fontWidth * (min td.columns wcols.toNat) : Nat),
            h := (td.fontHeight : Nat) }, ?_, ?_⟩
  · unfold updateImage
    dsimp only
    simp only [scrollImage_zero_fst]
    apply List.mem_append_left
    apply List.mem_filterMap.mpr
    refine ⟨y, List.mem_range.mpr hy, ?_⟩
    rw [hrow]
    simp
  · unfold rectContainsCell
    simp only [Bool.and_eq_true, decide_eq_true_eq]
    have h2 : td.fontWidth * (x + 1) ≤ td.fontWidth * (min td.columns wcols.toNat) :=
      Nat.mul_le_mul_left _ (by omega)
    have h4 : td.fontHeight * (y + 1) = td.fontHeight * y + td.fontHeight :=
      Nat.mul_succ _ _
    refine ⟨⟨⟨?_, ?_⟩, ?_⟩, ?_⟩ <;> omega

/-- C2 counterexample: while a resize is in progress (_resizing set, as
during the synchronous update triggered by updateImageSize), a 1x1
displayed grid holding 'A' diffed against an incoming grid holding 'X'
produces an empty dirty region: the differing cell (0,0) does not lie in
the reported region. -/
theorem updateImage_resizing_cex :
    tdResizing.resizing = true ∧
    newImgSingleX (0 * (1 : Int).toNat + 0) ≠
      tdResizing.image (0 * tdResizing.columns + 0) ∧
    (updateImage tdResizing 0 newImgSingleX 1 1).dirtyRegion = [] ∧
    ¬ cellInRegion tdResizing
      (updateImage tdResizing 0 newImgSingleX 1 1).dirtyRegion 0 0 := by
  decide

/-- Witness for updateImage_no_false_negatives: the 1x2 grid "AB" diffed
against "XB" (no resize in progress) reports a region containing the
differing cell (0,0). -/
theorem updateImage_no_false_negatives_witness :
    tdAB.resizing = false ∧
    newImgXB (0 * (2 : Int).toNat + 0) ≠ tdAB.image (0 * tdAB.columns + 0) ∧
    cellInRegion tdAB (updateImage tdAB 0 newImgXB 1 2).dirtyRegion 0 0 :=
  ⟨rfl, by decide,
   updateImage_no_false_negatives tdAB newImgXB 1 2 rfl (by decide) 0 0
     (by decide) (by decide) (by decide)⟩

/-- C8: on the 80x24 all-space grid, changing only cell (10, 5) of the
incoming grid to 'X' makes one updateImage report exactly the row-5
full-width rectangle as the dirty region — which contains the cells at
columns 9 through 11 of row 5 (the dirty mask is dilated one column to
each side of the changed cell, as the mask values show) — and marks no
other row dirty. -/
theorem updateImage_single_cell_scenario :
    (updateImage tdSpaces80x24 0 newImgX 24 80).dirtyRegion =
      [{ x := 0, y := 5, w := 80, h := 1 }] ∧
    cellInRegion tdSpaces80x24
      (updateImage tdSpaces80x24 0 newImgX 24 80).dirtyRegion 9 5 ∧
    cellInRegion tdSpaces80x24
      (updateImage tdSpaces80x24 0 newImgX 24 80).dirtyRegion 10 5 ∧
    cellInRegion tdSpaces80x24
      (updateImage tdSpaces80x24 0 newImgX 24 80).dirtyRegion 11 5 ∧
    dirtyMask tdSpaces80x24 newImgX 80 80 5 9 = true ∧
    dirtyMask tdSpaces80x24 newImgX 80 80 5 11 = true ∧
    dirtyMask tdSpaces80x24 newImgX 80 80 5 8 = false := by
  decide

/-- C9: for every input point, provided usedLines ≥ 1 and usedColumns ≥ 1,
characterPosition returns a line in [0, usedLines) and a column in
[0, usedColumns): out-of-grid coordinates are clamped to the nearest
valid cell and the conversion never fails. -/
theorem characterPosition_clamped (td : TerminalDisplay) (p : QPoint)
    (hL : 1 ≤ td.usedLines) (hC : 1 ≤ td.usedColumns) :
    0 ≤ (characterPosition td p).1 ∧
    (characterPosition td p).1 < (td.usedLines : Int) ∧
    0 ≤ (characterPosition td p).2 ∧
    (characterPosition td p).2 < (td.usedColumns : Int) := by
  unfold characterPosition
  dsimp only
  refine ⟨?_, ?_, ?_, ?_⟩ <;> split_ifs <;> omega

/-- Witness for characterPosition_clamped: on the 80x24 grid the point
(-100, 500), far outside the widget, lands on a valid cell. -/
theorem characterPosition_clamped_witness :
    1 ≤ tdSpaces80x24.usedLines ∧ 1 ≤ tdSpaces80x24.usedColumns ∧
    (0 ≤ (characterPosition tdSpaces80x24 ⟨-100, 500⟩).1 ∧
     (characterPosition tdSpaces80x24 ⟨-100, 500⟩).1 <
       (tdSpaces80x24.usedLines : Int) ∧
     0 ≤ (characterPosition tdSpaces80x24 ⟨-100, 500⟩).2 ∧
     (characterPosition tdSpaces80x24 ⟨-100, 500⟩).2 <
       (tdSpaces80x24.usedColumns : Int)) :=
  ⟨by decide, by decide,
   characterPosition_clamped tdSpaces80x24 ⟨-100, 500⟩ (by decide) (by decide)⟩

/-- C7: charClass maps every character into exactly three classes
(whitespace 32; word 97 — letters, digits, or members of the configurable
word-character set; other 1), and a double-click at column 2 of "hello"
in the row "hello world" grows both bounds by matching the class of the
clicked cell: the communicated selection covers exactly columns 0 through
4 and does not cross the space. -/
theorem charClass_three_classes_and_word_scenario :
    (∀ cl : CharClassifier, ∀ ch : Nat,
      charClass cl ch = 32 ∨ charClass cl ch = 97 ∨ charClass cl ch = 1) ∧
    (mouseDoubleClickEvent tdHello ⟨2, 0⟩ false).2 =
      some { start := some (0, 0, false), endSel := (4, 0) } := by
  constructor
  · intro cl ch
    unfold charClass
    split_ifs <;> simp
  · decide

/-- The downward logical-line walk never moves up. -/
theorem lineWalkDown_ge (props : Nat → LineProperty) (bound : Int) :
    ∀ fuel y, y ≤ lineWalkDown props bound y fuel := by
  intro fuel
  induction fuel with
  | zero => intro y; exact le_refl y
  | succ fuel ih =>
    intro y
    rw [lineWalkDown]
    split_ifs with h
    · exact le_trans (by omega) (ih (y + 1))
    · exact le_refl y

/-- C6: a triple click (cut-to-beginning-of-line off, its initialized
value) selects the full logical line: the start is column 0 of the
clicked row walked up through the wrapped flags, the end is the last
column of that row walked down through the wrapped flags, and every cell
of every physical row of the logical line up to the last used column lies
between the communicated start and end in reading order. -/
theorem mouseTripleClickEvent_covers_line (td : TerminalDisplay)
    (pos : QPoint) (hcut : td.cutToBeginningOfLine = false)
    (hused : td.usedColumns ≤ td.columns) :
    (mouseTripleClickEvent td pos).2.start =
      some (0, tripleClickLineStart td pos, false) ∧
    (mouseTripleClickEvent td pos).2.endSel =
      ((td.columns : Int) - 1, tripleClickLineEnd td pos) ∧
    tripleClickLineStart td pos ≤ tripleClickLineEnd td pos ∧
    (∀ x y : Int, tripleClickLineStart td pos ≤ y →
      y ≤ tripleClickLineEnd td pos → 0 ≤ x →
      x ≤ (td.usedColumns : Int) - 1 →
      readingLE ⟨0, tripleClickLineStart td pos⟩ ⟨x, y⟩ ∧
      readingLE ⟨x, y⟩ ⟨(td.columns : Int) - 1, tripleClickLineEnd td pos⟩) := by
  refine ⟨?_, ?_, ?_, ?_⟩
  · unfold mouseTripleClickEvent tripleClickLineStart
    dsimp only
    rw [hcut]
    rfl
  · unfold mouseTripleClickEvent tripleClickLineEnd tripleClickLineStart
    dsimp only
    rw [hcut]
    rfl
  · unfold tripleClickLineEnd
    exact lineWalkDown_ge _ _ _ _
  · intro x y h1 h2 h3 h4
    have hcast : (td.usedColumns : Int) ≤ (td.columns : Int) := by
      exact_mod_cast hused
    constructor
    · unfold readingLE
      dsimp only
      omega
    · unfold readingLE
      dsimp only
      omega

/-- Witness for mouseTripleClickEvent_covers_line: a triple click at
(3, 4) on the grid whose row 4 wraps into row 5 selects (0,4)..(7,5),
covering both physical rows in full. -/
theorem mouseTripleClickEvent_covers_line_witness :
    tdWrapped45.cutToBeginningOfLine = false ∧
    tdWrapped45.usedColumns ≤ tdWrapped45.columns ∧
    (mouseTripleClickEvent tdWrapped45 ⟨3, 4⟩).2 =
      { start := some (0, 4, false), endSel := (7, 5) } ∧
    readingLE ⟨0, tripleClickLineStart tdWrapped45 ⟨3, 4⟩⟩ ⟨7, 4⟩ ∧
    readingLE ⟨7, 4⟩
      ⟨(tdWrapped45.columns : Int) - 1, tripleClickLineEnd tdWrapped45 ⟨3, 4⟩⟩ :=
  have h := mouseTripleClickEvent_covers_line tdWrapped45 ⟨3, 4⟩ rfl (by decide)
  ⟨rfl, by decide, by decide,
   (h.2.2.2 7 4 (by decide) (by decide) (by decide) (by decide)).1,
   (h.2.2.2 7 4 (by decide) (by decide) (by decide) (by decide)).2⟩

/-- Two points with equal coordinates are equal. -/
theorem qpointEqOf (a b : QPoint) (hx : a.x = b.x) (hy : a.y = b.y) : a = b := by
  cases a
  cases b
  simp_all

/-- The space-skipping loop of the default selection mode never moves the
right point leftwards. -/
theorem freeSkipSpacesAux_x_le (td : TerminalDisplay) (selClass : Nat)
    (y : Int) : ∀ fuel i x, x ≤ (freeSkipSpacesAux td selClass y i x fuel).2 := by
  intro fuel
  induction fuel with
  | zero => intro i x; exact le_refl x
  | succ fuel ih =>
    intro i x
    rw [freeSkipSpacesAux]
    split_ifs with h
    · exact le_trans (by omega) (ih (i + 1) (x + 1))
    · exact le_refl x

/-- The right end computed by the default selection mode stays on the row
of its base point (the anchor when dragging left, the live point when
dragging right) and never moves left of it. -/
theorem selFreeRight_spec (td : TerminalDisplay) (pos : QPoint) :
    (selFreeRight td pos).y =
      (if selLeftNotRight td pos then selAnchorCorr td pos
       else selHere td pos).y ∧
    (if selLeftNotRight td pos then selAnchorCorr td pos
     else selHere td pos).x ≤ (selFreeRight td pos).x := by
  unfold selFreeRight
  dsimp only
  generalize (if selLeftNotRight td pos then selAnchorCorr td pos
    else selHere td pos) = r0
  split_ifs with h1 h2 h3 h4
  all_goals refine ⟨rfl, ?_⟩
  all_goals try exact le_refl _
  all_goals (dsimp only; have hmono := freeSkipSpacesAux_x_le td (charClass td.classifier (td.image (loc td r0.x r0.y - 1).toNat).character) r0.y (td.usedColumns + 1) (loc td r0.x r0.y) r0.x; omega)

/-- The source's strict reading-order test is false exactly when the
second point is at or before the first in reading order. -/
theorem readingLTb_false_iff (a b : QPoint) :
    readingLTb a b = false ↔ (b.y < a.y ∨ (b.y = a.y ∧ b.x ≤ a.x)) := by
  unfold readingLTb
  simp only [Bool.or_eq_false_iff, Bool.and_eq_false_iff,
    decide_eq_false_iff_not, beq_eq_false_iff_ne, not_lt]
  constructor
  · intro ⟨ha, hb⟩
    rcases hb with hb | hb
    · exact Or.inl (by omega)
    · omega
  · intro h
    constructor
    · omega
    · by_cases hy : a.y = b.y
      · exact Or.inr (by omega)
      · exact Or.inl hy

/-- C3 counterexample: in the default selection mode, dragging the live
point to (2,2), left of the anchor (5,2), makes extendSelection pass
setSelectionStart(4, 2) and setSelectionEnd(2, 2) to the screen window:
the communicated start is strictly after the communicated end in
(row, column) reading order. -/
theorem extendSelection_order_cex :
    extendSelectionCalls tdDragLeft ⟨2, 2⟩ =
      some { start := some (4, 2, false), endSel := (2, 2) } ∧
    ¬ readingLE ⟨4, 2⟩ ⟨2, 2⟩ := by decide

/-- C3 (amended): in the default (non-word, non-line, non-column)
selection mode, the pair extendSelection communicates is anchor-side as
start and live-side as end, and it is ordered only when the live point is
at or after the anchor: when left_not_right is false the start (when
re-sent) is exactly the anchor cell and start ≤ end holds in reading
order; when the live point is before the anchor the end is the live cell
while the start stays anchor-derived (same row as the anchor, column ≥
anchor.x - 1), so the communicated start exceeds the communicated end
(see the counterexample) and the ordering into start ≤ end is left to the
screen window; the roles are swapped — the selection start re-sent —
exactly when the drag is beginning or the live point has crossed to the
other side of the anchor. -/
theorem extendSelection_free_mode_calls (td : TerminalDisplay) (pos : QPoint)
    (hw : td.wordSelectionMode = false) (hl : td.lineSelectionMode = false)
    (hc : td.columnSelectionMode = false)
    (calls : SelectionCalls)
    (hcalls : extendSelectionCalls td pos = some calls) :
    (calls.start.isSome =
      (decide (td.actSel < 2) ||
        (selLeftNotRight td pos != selOldLeftNotRight td pos))) ∧
    (selLeftNotRight td pos = false →
      (∀ s, calls.start = some s →
        s = ((selAnchorCorr td pos).x, (selAnchorCorr td pos).y, false)) ∧
      readingLE ⟨(selAnchorCorr td pos).x, (selAnchorCorr td pos).y⟩
        ⟨calls.endSel.1, calls.endSel.2⟩) ∧
    (selLeftNotRight td pos = true →
      calls.endSel = ((selHere td pos).x, (selHere td pos).y) ∧
      (∀ s, calls.start = some s →
        s.2.1 = (selAnchorCorr td pos).y ∧
        (selAnchorCorr td pos).x - 1 ≤ s.1 ∧ s.2.2 = false)) := by
  have hspec := selFreeRight_spec td pos
  unfold extendSelectionCalls at hcalls
  by_cases hlnr : selLeftNotRight td pos = true
  · simp only [hw, hl, hc, hlnr, Bool.false_eq_true, if_false, if_true,
      Bool.false_and, Bool.and_false, Bool.false_or] at hcalls
    rw [hlnr] at hspec
    simp only [if_true] at hspec
    split at hcalls
    · exact absurd hcalls (by simp)
    · split at hcalls
      · exact absurd hcalls (by simp)
      · rw [Option.some.injEq] at hcalls
        subst hcalls
        refine ⟨?_, ?_, ?_⟩
        · rw [hlnr]
          by_cases hcond : (decide (td.actSel < 2) ||
              (true != selOldLeftNotRight td pos)) = true
          · dsimp only
            rw [if_pos hcond, hcond]
            rfl
          · dsimp only
            rw [if_neg hcond]
            simp only [Bool.not_eq_true] at hcond
            rw [hcond]
            rfl
        · intro habs
          rw [hlnr] at habs
          exact absurd habs (by simp)
        · intro _
          constructor
          · dsimp only
            have harith : (selHere td pos).x + 0 = (selHere td pos).x := by ring
            rw [harith]
          · intro s hs
            dsimp only at hs
            split_ifs at hs
            · rw [Option.some.injEq] at hs
              subst hs
              refine ⟨by dsimp only; omega, by dsimp only; omega, rfl⟩
  · rw [Bool.not_eq_true] at hlnr
    simp only [hw, hl, hc, hlnr, Bool.false_eq_true, if_false, if_true,
      Bool.false_and, Bool.and_false, Bool.false_or] at hcalls
    rw [hlnr] at hspec
    simp only [Bool.false_eq_true, if_false] at hspec
    split at hcalls
    · exact absurd hcalls (by simp)
    · split at hcalls
      · exact absurd hcalls (by simp)
      · rename_i hr1 hr2
        rw [Option.some.injEq] at hcalls
        subst hcalls
        have hne : ¬(selFreeRight td pos = selAnchorCorr td pos) := by
          intro heq
          exact hr2 (by rw [heq]; exact beq_self_eq_true _)
        have horder := (readingLTb_false_iff (selHere td pos)
          (selAnchorCorr td pos)).mp hlnr
        refine ⟨?_, ?_, ?_⟩
        · rw [hlnr]
          by_cases hcond : (decide (td.actSel < 2) ||
              (false != selOldLeftNotRight td pos)) = true
          · dsimp only
            rw [if_pos hcond, hcond]
            rfl
          · dsimp only
            rw [if_neg hcond]
            simp only [Bool.not_eq_true] at hcond
            rw [hcond]
            rfl
        · intro _
          constructor
          · intro s hs
            dsimp only at hs
            split_ifs at hs
            · rw [Option.some.injEq] at hs
              subst hs
              have harith : (selAnchorCorr td pos).x - 1 - -1 =
                  (selAnchorCorr td pos).x := by ring
              rw [harith]
          · dsimp only
            unfold readingLE
            dsimp only
            rcases horder with hcase | hcase
            · exact Or.inl (by omega)
            · right
              have hxne : (selFreeRight td pos).x ≠ (selAnchorCorr td pos).x := by
                intro hx
                exact hne (qpointEqOf _ _ hx (by omega))
              exact ⟨by omega, by omega⟩
        · intro habs
          rw [hlnr] at habs
          exact absurd habs (by simp)

/-- Witness for extendSelection_free_mode_calls: dragging right from the
anchor (2,2) to (5,2) at the start of a drag communicates start (2,2) and
end (4,2), with start ≤ end. -/
theorem extendSelection_free_mode_calls_witness :
    tdDragRight.wordSelectionMode = false ∧
    tdDragRight.lineSelectionMode = false ∧
    tdDragRight.columnSelectionMode = false ∧
    extendSelectionCalls tdDragRight ⟨5, 2⟩ =
      some { start := some (2, 2, false), endSel := (4, 2) } ∧
    selLeftNotRight tdDragRight ⟨5, 2⟩ = false ∧
    readingLE ⟨(selAnchorCorr tdDragRight ⟨5, 2⟩).x,
               (selAnchorCorr tdDragRight ⟨5, 2⟩).y⟩ ⟨4, 2⟩ :=
  ⟨rfl, rfl, rfl, by decide, by decide,
   ((extendSelection_free_mode_calls tdDragRight ⟨5, 2⟩ rfl rfl rfl
       { start := some (2, 2, false), endSel := (4, 2) } (by decide)).2.1
     (by decide)).2⟩

end Konsole
